import Mathlib

/-!
Shallow embedding of the MudaeTracker debt-ledger bot.

The repository contains three variants of the same bot:
  src/index.js          unified pending map keyed by message id, reaction-based
                        confirmation for both LOAN and REPAY;
  src/unnamed/part_000  separate pendingLoans (message-keyed, reaction confirmation)
                        and pendingRepayments (channel-keyed, strict
                        mudaeRegex message confirmation);
  src/unnamed/part_001  same split, but loose substring parsing for the repayment
                        confirmation, and (second half) a legacy immediate-apply
                        variant with no pending state.

Timestamps are modelled as milliseconds since the epoch (Int), matching the
JavaScript Date arithmetic in the source; the server is assumed to run in UTC,
so the setDate call that advances last_interest_at by 7 * weeks calendar days
amounts to adding 7 * weeks * 86400000 milliseconds.
-/

/-- One row of the debts table (CREATE TABLE in initDB of each variant). -/
structure Debt where
  id : Nat
  borrower_id : String
  admin_id : String
  amount_initial : Nat
  amount_remaining : Nat
  created_at : Int
  last_interest_at : Int
  status : String
  note : String
deriving DecidableEq

/-- Milliseconds in a day, the 1000 * 60 * 60 * 24 constant of applyInterest. -/
def msPerDay : Int := 86400000

/-- One week of compound interest: Math.ceil(newAmount * 1.05).  The JS code
multiplies by the Float64 literal 1.05 and takes the ceiling; for the integer
amounts stored in the INTEGER column this equals the exact ceiling of 21 * n / 20,
which in natural-number division is (21 * n + 19) / 20. -/
def ceil105 (n : Nat) : Nat := (21 * n + 19) / 20

/-- The for-loop of applyInterest: iterate ceil105 once per elapsed week. -/
def compoundWeeks (n : Nat) : Nat → Nat
  | 0 => n
  | w + 1 => ceil105 (compoundWeeks n w)

/-- Body of the per-debt loop of applyInterest (all three variants are
identical): diffTime = Math.abs(now - lastInterest); diffDays = floor of
diffTime / 86400000; weeksPassed = floor of diffDays / 7; if weeksPassed > 0,
compound the remaining amount weeksPassed times and advance last_interest_at by
exactly weeksPassed * 7 days.  Note the Math.abs: a now that lies before
last_interest_at contributes its absolute distance. -/
def applyInterestDebt (now : Int) (d : Debt) : Debt :=
  let diffTime : Nat := (now - d.last_interest_at).natAbs
  let diffDays : Nat := diffTime / 86400000
  let weeksPassed : Nat := diffDays / 7
  if weeksPassed > 0 then
    { d with
      amount_remaining := compoundWeeks d.amount_remaining weeksPassed,
      last_interest_at := d.last_interest_at + (weeksPassed * 7 : Nat) * msPerDay }
  else d

/-- applyInterest over the whole table: the SELECT restricts to status = open
rows and each is updated by id; with unique SERIAL ids this is a pointwise map
that leaves paid rows untouched. -/
def applyInterest (now : Int) (debts : List Debt) : List Debt :=
  debts.map (fun d => if d.status = "open" then applyInterestDebt now d else d)

/-- logDebt: INSERT a fresh open row whose amount_initial and amount_remaining
are both the loaned amount and whose created_at and last_interest_at are both
now; SERIAL assigns the next id.  Returns (new table, next SERIAL value,
assigned id). -/
def logDebt (borrowerId adminId : String) (amount : Nat) (note : String)
    (now : Int) (debts : List Debt) (nextId : Nat) : List Debt × Nat × Nat :=
  (debts ++ [{ id := nextId, borrower_id := borrowerId, admin_id := adminId,
               amount_initial := amount, amount_remaining := amount,
               created_at := now, last_interest_at := now,
               status := "open", note := note }],
   nextId + 1, nextId)

/-- Structured form of the strings pushed into the logs array of payDebt:
paidFully id amount stands for the fully-paid line mentioning the debt id and
the amount that was owed; reduced id by remaining stands for the partial line
mentioning the debt id, the amount applied and the new remaining balance. -/
inductive PayLog where
  | paidFully (id : Nat) (amount : Nat)
  | reduced (id : Nat) (by_ : Nat) (remaining : Nat)
deriving DecidableEq

/-- The for-loop of payDebt over the selected rows, threading the running
unallocated amount.  remaining <= 0 breaks; a row fully covered is zeroed and
marked paid; otherwise the row is reduced and the running amount becomes 0
(the JS sets remaining = 0 and the next iteration breaks). -/
def payLoop (remaining : Nat) : List Debt → List Debt × List PayLog
  | [] => ([], [])
  | d :: rest =>
    if remaining = 0 then (d :: rest, [])
    else if d.amount_remaining ≤ remaining then
      let res := payLoop (remaining - d.amount_remaining) rest
      ({ d with amount_remaining := 0, status := "paid" } :: res.1,
       PayLog.paidFully d.id d.amount_remaining :: res.2)
    else
      let res := payLoop 0 rest
      ({ d with amount_remaining := d.amount_remaining - remaining } :: res.1,
       PayLog.reduced d.id remaining (d.amount_remaining - remaining) :: res.2)

/-- Stable insertion keeping created_at ascending, used to model the ORDER BY
created_at ASC of the payDebt SELECT. -/
def insertByCreated (d : Debt) : List Debt → List Debt
  | [] => [d]
  | e :: es => if e.created_at ≤ d.created_at then e :: insertByCreated d es
               else d :: e :: es

/-- Sort by created_at ascending (ORDER BY created_at ASC). -/
def sortByCreated : List Debt → List Debt
  | [] => []
  | d :: ds => insertByCreated d (sortByCreated ds)

/-- Write the updated rows back into the table: each UPDATE targets a row by
id, so every table row whose id appears among the updated rows is replaced. -/
def applyUpdates (updated : List Debt) (debts : List Debt) : List Debt :=
  debts.map (fun d =>
    match updated.find? (fun u => u.id == d.id) with
    | some u => u
    | none => d)

/-- payDebt: SELECT the borrowers open debts ordered by created_at ASC, walk
them FIFO with payLoop, and UPDATE the touched rows by id.  Returns the new
table and the log lines. -/
def payDebt (borrowerId : String) (amount : Nat) (debts : List Debt) :
    List Debt × List PayLog :=
  let rows := sortByCreated (debts.filter
    (fun d => decide (d.borrower_id = borrowerId ∧ d.status = "open")))
  let res := payLoop amount rows
  (applyUpdates res.1 debts, res.2)

/-- The hard-coded Mudae account id of all three variants. -/
def MUDAE_ID : String := "432610292342587392"

/-- The checkmark emoji constant. -/
def CHECKMARK : String := "✅"

/-- Does the first character list lead the second one (needle leads hay)? -/
def leadsList : List Char → List Char → Bool
  | [], _ => true
  | _ :: _, [] => false
  | a :: as, b :: bs => a == b && leadsList as bs

/-- Does needle occur as a contiguous run inside hay?  Models the JS
String.prototype.includes test. -/
def charsSub (needle : List Char) : List Char → Bool
  | [] => needle.isEmpty
  | c :: t => leadsList needle (c :: t) || charsSub needle t

/-- includes on strings. -/
def strContains (hay needle : String) : Bool := charsSub needle.data hay.data

/-- toLowerCase, restricted to the ASCII case mapping the bot relies on. -/
def lowerStr (s : String) : String := String.mk (s.data.map Char.toLower)

/-- Decimal value of a digit run, as produced by parseInt on the capture. -/
def digitsVal (cs : List Char) : Nat :=
  cs.foldl (fun a c => 10 * a + (c.toNat - 48)) 0

/-- The suffix of hay right after the first occurrence of needle, if any.
Since any later occurrence lies inside the suffix after the first one, a
pattern of the shape anything-needle-anything-rest succeeds exactly when rest
is found inside this suffix. -/
def afterSub (needle : List Char) : List Char → Option (List Char)
  | [] => if needle.isEmpty then some [] else none
  | c :: t => if leadsList needle (c :: t) then some (List.drop needle.length (c :: t))
              else afterSub needle t

/-- Parse the mention part of the trigger grammar, the regex piece
matching a left angle bracket, an at sign, an optional exclamation mark, one
or more digits (captured as the target user id) and a right angle bracket.
Returns the captured id and the rest of the input. -/
def parseMention : List Char → Option (String × List Char)
  | '<' :: '@' :: rest =>
    let rest1 := match rest with
      | '!' :: r => r
      | r => r
    let ds := rest1.takeWhile Char.isDigit
    let rest2 := rest1.dropWhile Char.isDigit
    if ds.isEmpty then none
    else match rest2 with
      | '>' :: r => some (String.mk ds, r)
      | _ => none
  | _ => none

/-- Parse what follows a recognized verb: one or more whitespace characters,
a mention, one or more whitespace characters, and one or more digits captured
as the amount (trailing input is unconstrained, as in the unanchored regex). -/
def parseAfterVerb (cs : List Char) : Option (String × Nat) :=
  let ws := cs.takeWhile Char.isWhitespace
  let cs1 := cs.dropWhile Char.isWhitespace
  if ws.isEmpty then none
  else match parseMention cs1 with
    | none => none
    | some (uid, cs2) =>
      let ws2 := cs2.takeWhile Char.isWhitespace
      let cs3 := cs2.dropWhile Char.isWhitespace
      if ws2.isEmpty then none
      else
        let ds := cs3.takeWhile Char.isDigit
        if ds.isEmpty then none else some (uid, digitsVal ds)

/-- Try each verb of the alternation in order at the current position, as the
regex alternation does (no verb is a proper lead of another, so this agrees
with backtracking). -/
def tryVerbs : List (List Char) → List Char → Option (String × Nat)
  | [], _ => none
  | v :: vs, cs =>
    if leadsList v cs then
      match parseAfterVerb (cs.drop v.length) with
      | some r => some r
      | none => tryVerbs vs cs
    else tryVerbs vs cs

/-- giveRegex of the trigger handlers: a dollar sigil at the start, givescrap
or givekakera, whitespace, a mention, whitespace, an amount; case-insensitive
(the captured id and amount are digits, unaffected by lowering). -/
def parseGive (content : String) : Option (String × Nat) :=
  match (lowerStr content).data with
  | '$' :: rest => tryVerbs ["givescrap".data, "givekakera".data] rest
  | _ => none

/-- takeRegex of the trigger handlers: kakeraremove or takekakera. -/
def parseTake (content : String) : Option (String × Nat) :=
  match (lowerStr content).data with
  | '$' :: rest => tryVerbs ["kakeraremove".data, "takekakera".data] rest
  | _ => none

/-- The characters the JS dot cannot match without the s flag: the line
terminators newline, carriage return, line separator and paragraph
separator. -/
def isLineTerm (c : Char) : Bool :=
  c == '\n' || c == '\r' || c == '\u2028' || c == '\u2029'

/-- mudaeRegex of part_000: anchored at the start, optional asterisks, then
one or more digits and commas (the captured amount), then anything containing
the word removed followed later by an open parenthesis and the word added;
case-insensitive.  The pattern has no s flag and no m flag, and none of its
pieces can match a line terminator, so the whole match must lie within the
first line of the content — the input is therefore truncated at the first
line terminator.  Commas are stripped before parseInt.  A capture holding no
digit makes parseInt return NaN, which compares unequal to every pending
amount; that is observationally the same as no match, so it is folded into
none here. -/
def mudaeParse (content : String) : Option Nat :=
  let cs := (lowerStr content).data.takeWhile (fun c => !(isLineTerm c))
  let afterStars := cs.dropWhile (fun c => c == '*')
  let numPart := afterStars.takeWhile (fun c => c.isDigit || c == ',')
  let rest := afterStars.dropWhile (fun c => c.isDigit || c == ',')
  if numPart.isEmpty then none
  else match afterSub "removed".data rest with
    | none => none
    | some suffix =>
      if charsSub "(added".data suffix then
        let ds := numPart.filter Char.isDigit
        if ds.isEmpty then none else some (digitsVal ds)
      else none

/-- Lookup in a JS Map modelled as an association list. -/
def mapGet {α : Type} (m : List (String × α)) (k : String) : Option α :=
  (m.find? (fun e => e.1 == k)).map (fun e => e.2)

/-- Map.set: replaces any entry under the same key (last write wins).  The JS
Map keeps the original insertion position on overwrite; only lookup, overwrite
and deletion are relevant to the handlers, so the position is not modelled. -/
def mapSet {α : Type} (m : List (String × α)) (k : String) (v : α) :
    List (String × α) :=
  m.filter (fun e => ¬ e.1 = k) ++ [(k, v)]

/-- Map.delete. -/
def mapDelete {α : Type} (m : List (String × α)) (k : String) :
    List (String × α) :=
  m.filter (fun e => ¬ e.1 = k)

/-- A pending entry of the unified pendingActions map of src/index.js.  The
source stores the discriminator in a field named type holding LOAN or REPAY. -/
structure PendingAction where
  kind : String
  adminId : String
  userId : String
  amount : Nat
  timestamp : Int
deriving DecidableEq

/-- A pending entry of the pendingLoans and pendingRepayments maps of
part_000 and part_001 (no discriminator field). -/
structure PendingEntry where
  adminId : String
  userId : String
  amount : Nat
  timestamp : Int
deriving DecidableEq

/-- Process state of src/index.js: the tracking flag, the pendingActions map,
the debts table and the next SERIAL id. -/
structure IndexState where
  isTrackingEnabled : Bool
  pendingActions : List (String × PendingAction)
  debts : List Debt
  nextId : Nat
deriving DecidableEq

/-- Process state of part_000 and part_001: the tracking flag, the two pending
maps, the debts table and the next SERIAL id. -/
structure SplitState where
  isTrackingEnabled : Bool
  pendingLoans : List (String × PendingEntry)
  pendingRepayments : List (String × PendingEntry)
  debts : List Debt
  nextId : Nat
deriving DecidableEq

/-- An incoming message-posted event. -/
structure Msg where
  authorId : String
  authorIsBot : Bool
  id : String
  channelId : String
  content : String

/-- The messageCreate trigger handler of src/index.js: bots are ignored, then
non-admins, then everything while tracking is off, then messages whose lowered
content contains the exempt marker; a give match registers a LOAN pending
action and a take match a REPAY pending action under the message id, with no
database access on either path. -/
def indexMessageCreate (adminIds : List String) (st : IndexState) (m : Msg)
    (now : Int) : IndexState :=
  if m.authorIsBot then st
  else if ¬ adminIds.contains m.authorId then st
  else if ¬ st.isTrackingEnabled then st
  else if strContains (lowerStr m.content) "#exempt" then st
  else match parseGive m.content with
    | some r =>
      let a : PendingAction :=
        { kind := "LOAN", adminId := m.authorId, userId := r.1,
          amount := r.2, timestamp := now }
      { st with pendingActions := mapSet st.pendingActions m.id a }
    | none => match parseTake m.content with
      | some r =>
        let a : PendingAction :=
          { kind := "REPAY", adminId := m.authorId, userId := r.1,
            amount := r.2, timestamp := now }
        { st with pendingActions := mapSet st.pendingActions m.id a }
      | none => st

/-- The messageReactionAdd handler of src/index.js.  A partial reaction whose
fetch fails aborts (fetchOk = false).  Then the reactor must be Mudae, the
emoji a checkmark, tracking must be on and a pending action must exist under
the reacted message id.  On a match the action runs inside try/finally: the
finally clause always deletes the pending entry.  applyInterest catches its
own storage errors internally, so a thrown error comes from the insert, the
update statements or the reply; dbFail = true models any such throw, and
failDebts and failNextId stand for whatever the interrupted statements left
behind (quantified universally in the theorems, which therefore hold for
every possible partial effect of the failure). -/
def indexReactionAdd (st : IndexState) (userId msgId emojiName : String)
    (fetchOk : Bool) (now : Int) (dbFail : Bool) (failDebts : List Debt)
    (failNextId : Nat) : IndexState :=
  if ¬ fetchOk then st
  else if ¬ userId = MUDAE_ID then st
  else if ¬ emojiName = CHECKMARK ∧ ¬ emojiName = "white_check_mark" then st
  else if ¬ st.isTrackingEnabled then st
  else match mapGet st.pendingActions msgId with
    | none => st
    | some action =>
      let pending1 := mapDelete st.pendingActions msgId
      if dbFail then
        { st with debts := failDebts, nextId := failNextId,
                  pendingActions := pending1 }
      else if action.kind = "LOAN" then
        let d1 := applyInterest now st.debts
        let r := logDebt action.userId action.adminId action.amount
                   "Verified by Mudae" now d1 st.nextId
        { st with debts := r.1, nextId := r.2.1, pendingActions := pending1 }
      else if action.kind = "REPAY" then
        let d1 := applyInterest now st.debts
        let r := payDebt action.userId action.amount d1
        { st with debts := r.1, pendingActions := pending1 }
      else
        { st with pendingActions := pending1 }

/-- The Mudae-message repayment confirmation handler of part_001 (loose
parsing).  Note: this listener checks the author and the pending map but not
the tracking flag.  The lowered content must contain the decimal digits of the
pending amount somewhere (a substring test, not an equality test) and the word
removed; then payment runs inside try/finally and the finally clause deletes
the channel entry.  dbFail and failDebts are as in indexReactionAdd. -/
def p1MudaeConfirm (st : SplitState) (authorId channelId content : String)
    (now : Int) (dbFail : Bool) (failDebts : List Debt) : SplitState :=
  if ¬ authorId = MUDAE_ID then st
  else match mapGet st.pendingRepayments channelId with
    | none => st
    | some pending =>
      let lc := lowerStr content
      let hasAmount := strContains lc (toString pending.amount)
      let hasKeyword := strContains lc "removed"
      if hasAmount && hasKeyword then
        let d1 := applyInterest now st.debts
        let d2 := if dbFail then failDebts else (payDebt pending.userId pending.amount d1).1
        { st with debts := d2,
                  pendingRepayments := mapDelete st.pendingRepayments channelId }
      else st

/-- The Mudae-message repayment confirmation handler of part_000 (strict
mudaeRegex).  This variant does check the tracking flag.  The parsed leading
amount must equal the pending amount exactly.  Unlike the two try/finally
sites, this listener has no error handling: the delete is the last statement
of the match branch, so when the payment or the reply throws, the delete is
never reached — the pending entry survives and the debts hold whatever the
interrupted statements left behind (dbFail = true with an arbitrary
failDebts, quantified universally in the theorems). -/
def p0MudaeConfirm (st : SplitState) (authorId channelId content : String)
    (now : Int) (dbFail : Bool) (failDebts : List Debt) : SplitState :=
  if ¬ authorId = MUDAE_ID then st
  else if ¬ st.isTrackingEnabled then st
  else match mapGet st.pendingRepayments channelId with
    | none => st
    | some pending =>
      match mudaeParse content with
      | none => st
      | some removedAmount =>
        if removedAmount = pending.amount then
          if dbFail then { st with debts := failDebts }
          else
            let d1 := applyInterest now st.debts
            let d2 := (payDebt pending.userId pending.amount d1).1
            { st with debts := d2,
                      pendingRepayments := mapDelete st.pendingRepayments channelId }
        else st

/-- Deleting a key makes a lookup of that key miss. -/
theorem mapGet_delete_self {α : Type} (m : List (String × α)) (k : String) :
    mapGet (mapDelete m k) k = none := by
  induction m with
  | nil => rfl
  | cons e t ih =>
    by_cases h : e.1 = k
    · simpa [mapDelete, mapGet, h] using ih
    · simpa [mapDelete, mapGet, List.find?, h] using ih


/-- Setting a key makes a lookup of that key return the new value. -/
theorem mapGet_set_self {α : Type} (m : List (String × α)) (k : String) (v : α) :
    mapGet (mapSet m k v) k = some v := by
  induction m with
  | nil => simp [mapSet, mapGet, List.find?]
  | cons e t ih =>
    by_cases h : e.1 = k
    · simpa [mapSet, mapGet, h] using ih
    · simpa [mapSet, mapGet, List.find?, h] using ih

/-- After a set, exactly one entry lives under the written key. -/
theorem mapSet_unique_key {α : Type} (m : List (String × α)) (k : String) (v : α) :
    ((mapSet m k v).filter (fun e => e.1 = k)).length = 1 := by
  induction m with
  | nil => simp [mapSet]
  | cons e t ih =>
    by_cases h : e.1 = k
    · simpa [mapSet, h] using ih
    · simpa [mapSet, List.filter, h] using ih

/-- The trigger handler never touches the debts table, the SERIAL counter or
the tracking flag: only the pendingActions map can change. -/
theorem indexMessageCreate_frame (adminIds : List String) (st : IndexState)
    (m : Msg) (now : Int) :
    (indexMessageCreate adminIds st m now).debts = st.debts ∧
    (indexMessageCreate adminIds st m now).nextId = st.nextId ∧
    (indexMessageCreate adminIds st m now).isTrackingEnabled
      = st.isTrackingEnabled := by
  refine ⟨?_, ?_, ?_⟩ <;>
    · unfold indexMessageCreate
      repeat' split
      all_goals rfl

/-- With all gates passing and a give match, the trigger handler registers a
LOAN pending action under the message id and changes nothing else. -/
theorem indexMessageCreate_give (adminIds : List String) (st : IndexState)
    (m : Msg) (now : Int) (uid : String) (amt : Nat)
    (hbot : m.authorIsBot = false)
    (hadmin : adminIds.contains m.authorId = true)
    (htrack : st.isTrackingEnabled = true)
    (hex : strContains (lowerStr m.content) "#exempt" = false)
    (hg : parseGive m.content = some (uid, amt)) :
    indexMessageCreate adminIds st m now =
      { st with pendingActions := mapSet st.pendingActions m.id ⟨"LOAN", m.authorId, uid, amt, now⟩ } := by
  have hadmin2 : m.authorId ∈ adminIds := by simpa using hadmin
  simp [indexMessageCreate, hbot, hadmin2, htrack, hex, hg]

/-- When the reacted message has no pending action, the reaction handler is a
complete no-op, whatever the other inputs are. -/
theorem indexReactionAdd_miss (st : IndexState)
    (userId msgId emojiName : String) (fetchOk : Bool) (now : Int)
    (dbFail : Bool) (fd : List Debt) (fn : Nat)
    (h : mapGet st.pendingActions msgId = none) :
    indexReactionAdd st userId msgId emojiName fetchOk now dbFail fd fn = st := by
  unfold indexReactionAdd
  rw [h]
  repeat' split
  all_goals (try rfl)
  all_goals simp_all

/-- With all gates passing and a matching pending action, the reaction handler
deletes the pending entry under the message id and preserves the tracking
flag, whatever the database outcome was. -/
theorem indexReactionAdd_matched (st : IndexState) (msgId emojiName : String)
    (now : Int) (dbFail : Bool) (fd : List Debt) (fn : Nat) (a : PendingAction)
    (hemoji : emojiName = CHECKMARK ∨ emojiName = "white_check_mark")
    (htrack : st.isTrackingEnabled = true)
    (ha : mapGet st.pendingActions msgId = some a) :
    (indexReactionAdd st MUDAE_ID msgId emojiName true now dbFail fd fn).pendingActions
      = mapDelete st.pendingActions msgId ∧
    (indexReactionAdd st MUDAE_ID msgId emojiName true now dbFail fd fn).isTrackingEnabled
      = st.isTrackingEnabled := by
  have hem : ¬ (¬ emojiName = CHECKMARK ∧ ¬ emojiName = "white_check_mark") := by
    rcases hemoji with rfl | rfl <;> simp
  simp only [indexReactionAdd, ha, htrack, hem]
  refine ⟨?_, ?_⟩ <;>
    · repeat' split
      all_goals simp_all

/-- Success path of a LOAN confirmation: interest is brought current and a
fresh open debt with the pending amount is inserted; the pending entry is
deleted. -/
theorem indexReactionAdd_loan (st : IndexState) (msgId emojiName : String)
    (now : Int) (fd : List Debt) (fn : Nat) (a : PendingAction)
    (hemoji : emojiName = CHECKMARK ∨ emojiName = "white_check_mark")
    (htrack : st.isTrackingEnabled = true)
    (ha : mapGet st.pendingActions msgId = some a)
    (hkind : a.kind = "LOAN") :
    indexReactionAdd st MUDAE_ID msgId emojiName true now false fd fn =
      { st with
        debts := applyInterest now st.debts ++
          [⟨st.nextId, a.userId, a.adminId, a.amount, a.amount, now, now, "open",
            "Verified by Mudae"⟩],
        nextId := st.nextId + 1,
        pendingActions := mapDelete st.pendingActions msgId } := by
  have hem : ¬ (¬ emojiName = CHECKMARK ∧ ¬ emojiName = "white_check_mark") := by
    rcases hemoji with rfl | rfl <;> simp
  simp [indexReactionAdd, ha, htrack, hem, hkind, logDebt]

/-- When the channel has no pending repayment, the part_001 confirmation
handler is a complete no-op. -/
theorem p1MudaeConfirm_miss (st : SplitState)
    (authorId channelId content : String) (now : Int) (dbFail : Bool)
    (fd : List Debt)
    (h : mapGet st.pendingRepayments channelId = none) :
    p1MudaeConfirm st authorId channelId content now dbFail fd = st := by
  unfold p1MudaeConfirm
  rw [h]
  repeat' split
  all_goals (try rfl)
  all_goals simp_all

/-- With a matching pending repayment whose amount digits and the word
removed occur in the lowered content, the part_001 handler deletes the
channel entry and preserves the tracking flag, whatever the database outcome
was. -/
theorem p1MudaeConfirm_matched (st : SplitState) (channelId content : String)
    (now : Int) (dbFail : Bool) (fd : List Debt) (p : PendingEntry)
    (hp : mapGet st.pendingRepayments channelId = some p)
    (hamt : strContains (lowerStr content) (toString p.amount) = true)
    (hkw : strContains (lowerStr content) "removed" = true) :
    (p1MudaeConfirm st MUDAE_ID channelId content now dbFail fd).pendingRepayments
      = mapDelete st.pendingRepayments channelId ∧
    (p1MudaeConfirm st MUDAE_ID channelId content now dbFail fd).isTrackingEnabled
      = st.isTrackingEnabled := by
  simp [p1MudaeConfirm, hp, hamt, hkw]

/-- A Mudae message in a watched channel that lacks the pending amount digits
or the keyword leaves the part_001 state untouched. -/
theorem p1MudaeConfirm_nomatch (st : SplitState) (channelId content : String)
    (now : Int) (dbFail : Bool) (fd : List Debt) (p : PendingEntry)
    (hp : mapGet st.pendingRepayments channelId = some p)
    (h : (strContains (lowerStr content) (toString p.amount) &&
          strContains (lowerStr content) "removed") = false) :
    p1MudaeConfirm st MUDAE_ID channelId content now dbFail fd = st := by
  simp [p1MudaeConfirm, hp, h]

/-- The part_000 strict confirmation consumes the pending entry when the
parsed leading amount equals the pending amount and the ledger operation
completes. -/
theorem p0MudaeConfirm_matched (st : SplitState) (channelId content : String)
    (now : Int) (fd : List Debt) (p : PendingEntry)
    (htrack : st.isTrackingEnabled = true)
    (hp : mapGet st.pendingRepayments channelId = some p)
    (hparse : mudaeParse content = some p.amount) :
    (p0MudaeConfirm st MUDAE_ID channelId content now false fd).pendingRepayments
      = mapDelete st.pendingRepayments channelId := by
  simp [p0MudaeConfirm, htrack, hp, hparse]

/-- When the part_000 payment throws, the delete at the end of the match
branch is never reached: the pending entry survives the failed confirmation,
whatever partial state the ledger was left in. -/
theorem p0MudaeConfirm_failKeeps (st : SplitState) (channelId content : String)
    (now : Int) (fd : List Debt) (p : PendingEntry)
    (htrack : st.isTrackingEnabled = true)
    (hp : mapGet st.pendingRepayments channelId = some p)
    (hparse : mudaeParse content = some p.amount) :
    (p0MudaeConfirm st MUDAE_ID channelId content now true fd).pendingRepayments
      = st.pendingRepayments := by
  simp [p0MudaeConfirm, htrack, hp, hparse]

/-- The part_000 strict confirmation ignores a Mudae message whose parsed
amount is absent or differs from the pending amount. -/
theorem p0MudaeConfirm_nomatch (st : SplitState) (channelId content : String)
    (now : Int) (dbFail : Bool) (fd : List Debt) (p : PendingEntry)
    (hp : mapGet st.pendingRepayments channelId = some p)
    (hne : mudaeParse content ≠ some p.amount) :
    p0MudaeConfirm st MUDAE_ID channelId content now dbFail fd = st := by
  cases hm : mudaeParse content with
  | none => simp [p0MudaeConfirm, hp, hm]
  | some r =>
    have hr : ¬ r = p.amount := by
      intro e
      exact hne (by rw [hm, e])
    simp [p0MudaeConfirm, hp, hm, hr]

/-- Rounding up a five percent increase never decreases an amount. -/
theorem le_ceil105 (n : Nat) : n ≤ ceil105 n := by
  unfold ceil105
  omega

/-- Iterated compounding never decreases an amount. -/
theorem le_compoundWeeks (n : Nat) : ∀ w : Nat, n ≤ compoundWeeks n w := by
  intro w
  induction w with
  | zero => exact Nat.le_refl n
  | succ k ih => exact le_trans ih (le_ceil105 (compoundWeeks n k))

/-- Inserting keeps the same elements. -/
theorem insertByCreated_perm (d : Debt) (l : List Debt) :
    (insertByCreated d l).Perm (d :: l) := by
  induction l with
  | nil => exact List.Perm.refl _
  | cons e es ih =>
    by_cases h : e.created_at ≤ d.created_at
    · simp only [insertByCreated, if_pos h]
      exact (ih.cons e).trans (List.Perm.swap d e es)
    · simp only [insertByCreated, if_neg h]
      exact List.Perm.refl _

/-- The FIFO sort is a permutation of its input. -/
theorem sortByCreated_perm (l : List Debt) : (sortByCreated l).Perm l := by
  induction l with
  | nil => exact List.Perm.refl _
  | cons d ds ih =>
    exact (insertByCreated_perm d (sortByCreated ds)).trans (ih.cons d)

/-- When the payment strictly exceeds the total remaining over the walked
rows, every row is fully paid and both outputs are independent of the
payment. -/
theorem payLoop_overpay (rows : List Debt) (amount : Nat)
    (h : (rows.map (fun d => d.amount_remaining)).sum < amount) :
    payLoop amount rows =
      (rows.map (fun d => { d with amount_remaining := 0, status := "paid" }),
       rows.map (fun d => PayLog.paidFully d.id d.amount_remaining)) := by
  induction rows generalizing amount with
  | nil => rfl
  | cons d rest ih =>
    simp only [List.map_cons, List.sum_cons] at h
    have hne : ¬ amount = 0 := by omega
    have hge : d.amount_remaining ≤ amount := by omega
    have hrec := ih (amount - d.amount_remaining) (by omega)
    simp [payLoop, hne, hge, hrec]

/-- Writing back the fully-paid versions of the selected rows (unique ids)
pays off exactly the borrowers open debts and leaves every other row alone. -/
theorem applyUpdates_payOff (debts : List Debt) (u : String)
    (hN : (debts.map Debt.id).Nodup) :
    applyUpdates
      ((sortByCreated (debts.filter
          (fun d => decide (d.borrower_id = u ∧ d.status = "open")))).map
        (fun d => { d with amount_remaining := 0, status := "paid" }))
      debts
    = debts.map (fun d =>
        if d.borrower_id = u ∧ d.status = "open"
        then { d with amount_remaining := 0, status := "paid" } else d) := by
  unfold applyUpdates
  apply List.map_congr_left
  intro d hd
  by_cases hp : d.borrower_id = u ∧ d.status = "open"
  · have hdP : d ∈ debts.filter
        (fun d => decide (d.borrower_id = u ∧ d.status = "open")) :=
      List.mem_filter.mpr ⟨hd, by simp [hp.1, hp.2]⟩
    have hdR : d ∈ sortByCreated (debts.filter
        (fun d => decide (d.borrower_id = u ∧ d.status = "open"))) :=
      ((sortByCreated_perm _).mem_iff).mpr hdP
    have hmem : ({ d with amount_remaining := 0, status := "paid" } : Debt) ∈
        (sortByCreated (debts.filter
          (fun d => decide (d.borrower_id = u ∧ d.status = "open")))).map
        (fun d => { d with amount_remaining := 0, status := "paid" }) :=
      List.mem_map.mpr ⟨d, hdR, rfl⟩
    have hsome : (((sortByCreated (debts.filter
        (fun d => decide (d.borrower_id = u ∧ d.status = "open")))).map
        (fun d => { d with amount_remaining := 0, status := "paid" })).find?
        (fun uu => uu.id == d.id)).isSome := by
      rw [List.find?_isSome]
      exact ⟨_, hmem, by simp⟩
    obtain ⟨x, hx⟩ := Option.isSome_iff_exists.mp hsome
    rw [hx, if_pos hp]
    have hxmem := List.mem_of_find?_eq_some hx
    have hxid : x.id = d.id := by simpa using List.find?_some hx
    obtain ⟨r, hrR, hrx⟩ := List.mem_map.mp hxmem
    have hrP : r ∈ debts.filter
        (fun d => decide (d.borrower_id = u ∧ d.status = "open")) :=
      ((sortByCreated_perm _).mem_iff).mp hrR
    have hrD : r ∈ debts := (List.mem_filter.mp hrP).1
    have hrid : r.id = d.id := by
      have : ({ r with amount_remaining := 0, status := "paid" } : Debt).id = r.id := rfl
      rw [← hrx] at hxid
      simpa [this] using hxid
    have hrd : r = d := List.inj_on_of_nodup_map hN hrD hd hrid
    rw [← hrx, hrd]
  · have hnone : (((sortByCreated (debts.filter
        (fun d => decide (d.borrower_id = u ∧ d.status = "open")))).map
        (fun d => { d with amount_remaining := 0, status := "paid" })).find?
        (fun uu => uu.id == d.id)) = none := by
      rw [List.find?_eq_none]
      intro x hx hbeq
      obtain ⟨r, hrR, hrx⟩ := List.mem_map.mp hx
      have hrP : r ∈ debts.filter
          (fun d => decide (d.borrower_id = u ∧ d.status = "open")) :=
        ((sortByCreated_perm _).mem_iff).mp hrR
      have hrD : r ∈ debts := (List.mem_filter.mp hrP).1
      have hrpred : r.borrower_id = u ∧ r.status = "open" := by
        simpa using (List.mem_filter.mp hrP).2
      have hrid : r.id = d.id := by
        have hxid : x.id = d.id := by simpa using hbeq
        rw [← hrx] at hxid
        simpa using hxid
      have hrd : r = d := List.inj_on_of_nodup_map hN hrD hd hrid
      exact hp (hrd ▸ hrpred)
    rw [hnone, if_neg hp]

/-- C3: for a debt with remaining 1000 and exactly two whole weeks elapsed
since last_interest_at, accrual compounds iteratively, 1000 to 1050 to 1103,
and advances last_interest_at by exactly 14 days rather than to now, so the
partial-week remainder is preserved for the next run. -/
theorem accrualTwoWeeksExample (d : Debt) (now : Int)
    (hrem : d.amount_remaining = 1000)
    (hlo : 14 * msPerDay ≤ now - d.last_interest_at)
    (hhi : now - d.last_interest_at < 21 * msPerDay) :
    compoundWeeks 1000 1 = 1050 ∧
    (applyInterestDebt now d).amount_remaining = 1103 ∧
    (applyInterestDebt now d).last_interest_at
      = d.last_interest_at + 14 * msPerDay := by
  have hw : (now - d.last_interest_at).natAbs / 86400000 / 7 = 2 := by
    simp only [msPerDay] at hlo hhi
    omega
  refine ⟨by decide, ?_, ?_⟩
  · simp only [applyInterestDebt, hw]
    rw [if_pos (by decide : (2 : Nat) > 0), hrem]
    show compoundWeeks 1000 2 = 1103
    decide
  · simp only [applyInterestDebt, hw]
    rw [if_pos (by decide : (2 : Nat) > 0)]
    simp [msPerDay]

/-- Witness for C3 at a concrete debt, fourteen days plus one hour after the
last accrual. -/
theorem accrualTwoWeeksExample_witness :
    (applyInterestDebt (14 * 86400000 + 3600000)
      ⟨1, "u", "a", 1000, 1000, 0, 0, "open", ""⟩).amount_remaining = 1103 ∧
    (applyInterestDebt (14 * 86400000 + 3600000)
      ⟨1, "u", "a", 1000, 1000, 0, 0, "open", ""⟩).last_interest_at
      = 0 + 14 * msPerDay :=
  ⟨(accrualTwoWeeksExample ⟨1, "u", "a", 1000, 1000, 0, 0, "open", ""⟩
      (14 * 86400000 + 3600000) rfl (by decide) (by decide)).2.1,
   (accrualTwoWeeksExample ⟨1, "u", "a", 1000, 1000, 0, 0, "open", ""⟩
      (14 * 86400000 + 3600000) rfl (by decide) (by decide)).2.2⟩

/-- C4 counterexample: with the current time 14 days BEFORE last_interest_at
(elapsed time negative, so fewer than one whole week has elapsed), accrual is
not a no-op: the Math.abs in the handler treats the distance as 14 days and
compounds twice, raising the remaining amount from 1000 to 1103 and pushing
last_interest_at another 14 days into the future. -/
theorem accrualNegativeElapsedCounterexample :
    (0 : Int) - (⟨1, "u", "a", 1000, 1000, 0, 1209600000, "open", ""⟩ : Debt).last_interest_at < 0 ∧
    (applyInterestDebt 0 ⟨1, "u", "a", 1000, 1000, 0, 1209600000, "open", ""⟩).amount_remaining = 1103 ∧
    applyInterestDebt 0 ⟨1, "u", "a", 1000, 1000, 0, 1209600000, "open", ""⟩
      ≠ ⟨1, "u", "a", 1000, 1000, 0, 1209600000, "open", ""⟩ := by
  refine ⟨by decide, by decide, by decide⟩

/-- C4 as amended: when the absolute elapsed time is under one week, accrual
is a no-op; the remaining amount never decreases and last_interest_at never
moves backward, for any elapsed time; and whenever now is not before
last_interest_at, a second accrual run at the same time changes nothing (the
first run leaves a partial-week remainder under seven days).  The original
claim fails only in that a now at least seven days BEFORE last_interest_at is
not a no-op, because the code takes the absolute value of the elapsed time. -/
theorem accrualMonotoneIdempotentAmended (now : Int) (d : Debt) :
    ((now - d.last_interest_at).natAbs < 7 * 86400000 →
      applyInterestDebt now d = d) ∧
    (d.amount_remaining ≤ (applyInterestDebt now d).amount_remaining ∧
     d.last_interest_at ≤ (applyInterestDebt now d).last_interest_at) ∧
    (d.last_interest_at ≤ now →
      applyInterestDebt now (applyInterestDebt now d)
        = applyInterestDebt now d) := by
  refine ⟨?_, ⟨?_, ?_⟩, ?_⟩
  · intro h
    have hw : (now - d.last_interest_at).natAbs / 86400000 / 7 = 0 := by omega
    simp [applyInterestDebt, hw]
  · by_cases hw : (now - d.last_interest_at).natAbs / 86400000 / 7 = 0
    · simp [applyInterestDebt, hw]
    · simp only [applyInterestDebt, gt_iff_lt, Nat.pos_of_ne_zero hw, if_pos]
      exact le_compoundWeeks d.amount_remaining _
  · by_cases hw : (now - d.last_interest_at).natAbs / 86400000 / 7 = 0
    · simp [applyInterestDebt, hw]
    · simp only [applyInterestDebt, gt_iff_lt, Nat.pos_of_ne_zero hw, if_pos]
      have : (0 : Int) ≤ ((((now - d.last_interest_at).natAbs / 86400000 / 7) * 7 : Nat) : Int) * msPerDay :=
        mul_nonneg (Int.natCast_nonneg _) (by norm_num [msPerDay])
      omega
  · intro hle
    by_cases hw : (now - d.last_interest_at).natAbs / 86400000 / 7 = 0
    · have h1 : applyInterestDebt now d = d := by simp [applyInterestDebt, hw]
      rw [h1, h1]
    · have h1 : applyInterestDebt now d =
          { d with
            amount_remaining := compoundWeeks d.amount_remaining
              ((now - d.last_interest_at).natAbs / 86400000 / 7),
            last_interest_at := d.last_interest_at +
              (((now - d.last_interest_at).natAbs / 86400000 / 7) * 7 : Nat) * msPerDay } := by
        simp only [applyInterestDebt, gt_iff_lt, Nat.pos_of_ne_zero hw, if_pos]
      rw [h1]
      have h2 : ((now - (d.last_interest_at +
          ((((now - d.last_interest_at).natAbs / 86400000 / 7) * 7 : Nat) : Int) * msPerDay)).natAbs
          / 86400000) / 7 = 0 := by
        simp only [msPerDay]
        omega
      have h3 : ∀ e : Debt, (now - e.last_interest_at).natAbs / 86400000 / 7 = 0 →
          applyInterestDebt now e = e := by
        intro e he
        simp [applyInterestDebt, he]
      exact h3 _ h2

/-- Witness for the amended C4 statement: one hour of elapsed time is a
no-op, and at fifteen days past the last accrual a second run at the same
time changes nothing. -/
theorem accrualMonotoneIdempotentAmended_witness :
    applyInterestDebt 3600000 ⟨1, "u", "a", 1000, 1000, 0, 0, "open", ""⟩
      = ⟨1, "u", "a", 1000, 1000, 0, 0, "open", ""⟩ ∧
    applyInterestDebt 1300000000
        (applyInterestDebt 1300000000 ⟨1, "u", "a", 1000, 1000, 0, 0, "open", ""⟩)
      = applyInterestDebt 1300000000 ⟨1, "u", "a", 1000, 1000, 0, 0, "open", ""⟩ :=
  ⟨(accrualMonotoneIdempotentAmended 3600000
      ⟨1, "u", "a", 1000, 1000, 0, 0, "open", ""⟩).1 (by decide),
   (accrualMonotoneIdempotentAmended 1300000000
      ⟨1, "u", "a", 1000, 1000, 0, 0, "open", ""⟩).2.2 (by decide)⟩

/-- C2: a trigger message performs no ledger mutation whatsoever: the debts
table and the SERIAL counter are untouched by the messageCreate handler on
every path, and when the gates pass and a give trigger matches, the only
effect is the LOAN pending action registered under the message id; ledger
writes happen only in the later confirmation handler. -/
theorem triggerPerformsNoLedgerMutation (adminIds : List String)
    (st : IndexState) (m : Msg) (now : Int) :
    ((indexMessageCreate adminIds st m now).debts = st.debts ∧
     (indexMessageCreate adminIds st m now).nextId = st.nextId) ∧
    (m.authorIsBot = false →
     adminIds.contains m.authorId = true →
     st.isTrackingEnabled = true →
     strContains (lowerStr m.content) "#exempt" = false →
     ∀ uid amt, parseGive m.content = some (uid, amt) →
       mapGet (indexMessageCreate adminIds st m now).pendingActions m.id
         = some ⟨"LOAN", m.authorId, uid, amt, now⟩) := by
  refine ⟨⟨(indexMessageCreate_frame adminIds st m now).1,
           (indexMessageCreate_frame adminIds st m now).2.1⟩, ?_⟩
  intro hbot hadmin htrack hex uid amt hg
  rw [indexMessageCreate_give adminIds st m now uid amt hbot hadmin htrack hex hg]
  exact mapGet_set_self st.pendingActions m.id _

/-- Witness for C2: a concrete givescrap trigger registers its pending action
and leaves an empty ledger empty. -/
theorem triggerPerformsNoLedgerMutation_witness :
    (indexMessageCreate ["A"] ⟨true, [], [], 1⟩
      ⟨"A", false, "m1", "c", "$givescrap <@123> 500"⟩ 0).debts = [] ∧
    mapGet (indexMessageCreate ["A"] ⟨true, [], [], 1⟩
      ⟨"A", false, "m1", "c", "$givescrap <@123> 500"⟩ 0).pendingActions "m1"
      = some ⟨"LOAN", "A", "123", 500, 0⟩ :=
  ⟨((triggerPerformsNoLedgerMutation ["A"] ⟨true, [], [], 1⟩
      ⟨"A", false, "m1", "c", "$givescrap <@123> 500"⟩ 0).1).1,
   (triggerPerformsNoLedgerMutation ["A"] ⟨true, [], [], 1⟩
      ⟨"A", false, "m1", "c", "$givescrap <@123> 500"⟩ 0).2 rfl (by decide)
      rfl (by decide) "123" 500 (by decide)⟩

/-- C1: a qualifying confirmation is applied at most once per pending entry.
In src/index.js, processing a matching Mudae checkmark reaction deletes the
pending entry, and a second identical reaction afterwards finds no entry and
leaves the whole state, the ledger included, unchanged.  Likewise in the
part_001 message-based variant: a matching Mudae repayment message deletes
the channel pending entry and a second identical message is a no-op. -/
theorem confirmationAppliedAtMostOnce :
    (∀ (st : IndexState) (msgId emojiName : String) (now : Int)
       (fd : List Debt) (fn : Nat) (a : PendingAction),
      (emojiName = CHECKMARK ∨ emojiName = "white_check_mark") →
      st.isTrackingEnabled = true →
      mapGet st.pendingActions msgId = some a →
      mapGet (indexReactionAdd st MUDAE_ID msgId emojiName true now false fd
        fn).pendingActions msgId = none ∧
      ∀ (now2 : Int) (dbFail2 : Bool) (fd2 : List Debt) (fn2 : Nat),
        indexReactionAdd
          (indexReactionAdd st MUDAE_ID msgId emojiName true now false fd fn)
          MUDAE_ID msgId emojiName true now2 dbFail2 fd2 fn2
        = indexReactionAdd st MUDAE_ID msgId emojiName true now false fd fn) ∧
    (∀ (st : SplitState) (channelId content : String) (now : Int)
       (fd : List Debt) (p : PendingEntry),
      mapGet st.pendingRepayments channelId = some p →
      strContains (lowerStr content) (toString p.amount) = true →
      strContains (lowerStr content) "removed" = true →
      mapGet (p1MudaeConfirm st MUDAE_ID channelId content now false
        fd).pendingRepayments channelId = none ∧
      ∀ (now2 : Int) (dbFail2 : Bool) (fd2 : List Debt),
        p1MudaeConfirm
          (p1MudaeConfirm st MUDAE_ID channelId content now false fd)
          MUDAE_ID channelId content now2 dbFail2 fd2
        = p1MudaeConfirm st MUDAE_ID channelId content now false fd) := by
  constructor
  · intro st msgId emojiName now fd fn a hemoji htrack ha
    have hdel := indexReactionAdd_matched st msgId emojiName now false fd fn a
      hemoji htrack ha
    have hmiss : mapGet (indexReactionAdd st MUDAE_ID msgId emojiName true now
        false fd fn).pendingActions msgId = none := by
      rw [hdel.1]
      exact mapGet_delete_self st.pendingActions msgId
    exact ⟨hmiss, fun now2 dbFail2 fd2 fn2 =>
      indexReactionAdd_miss _ MUDAE_ID msgId emojiName true now2 dbFail2 fd2
        fn2 hmiss⟩
  · intro st channelId content now fd p hp hamt hkw
    have hdel := p1MudaeConfirm_matched st channelId content now false fd p
      hp hamt hkw
    have hmiss : mapGet (p1MudaeConfirm st MUDAE_ID channelId content now
        false fd).pendingRepayments channelId = none := by
      rw [hdel.1]
      exact mapGet_delete_self st.pendingRepayments channelId
    exact ⟨hmiss, fun now2 dbFail2 fd2 =>
      p1MudaeConfirm_miss _ MUDAE_ID channelId content now2 dbFail2 fd2 hmiss⟩

/-- Witness for C1: a concrete LOAN pending entry confirmed once by a Mudae
checkmark; the second identical reaction leaves the state fixed. -/
theorem confirmationAppliedAtMostOnce_witness :
    mapGet (indexReactionAdd
      ⟨true, [("m1", ⟨"LOAN", "A", "123", 500, 0⟩)], [], 1⟩
      MUDAE_ID "m1" CHECKMARK true 0 false [] 0).pendingActions "m1" = none ∧
    indexReactionAdd (indexReactionAdd
        ⟨true, [("m1", ⟨"LOAN", "A", "123", 500, 0⟩)], [], 1⟩
        MUDAE_ID "m1" CHECKMARK true 0 false [] 0)
      MUDAE_ID "m1" CHECKMARK true 99 true [] 7
    = indexReactionAdd
        ⟨true, [("m1", ⟨"LOAN", "A", "123", 500, 0⟩)], [], 1⟩
        MUDAE_ID "m1" CHECKMARK true 0 false [] 0 :=
  ⟨(confirmationAppliedAtMostOnce.1
      ⟨true, [("m1", ⟨"LOAN", "A", "123", 500, 0⟩)], [], 1⟩
      "m1" CHECKMARK 0 [] 0 ⟨"LOAN", "A", "123", 500, 0⟩
      (Or.inl rfl) rfl (by decide)).1,
   (confirmationAppliedAtMostOnce.1
      ⟨true, [("m1", ⟨"LOAN", "A", "123", 500, 0⟩)], [], 1⟩
      "m1" CHECKMARK 0 [] 0 ⟨"LOAN", "A", "123", 500, 0⟩
      (Or.inl rfl) rfl (by decide)).2 99 true [] 7⟩

/-- C10: once a matching confirmation starts processing, the try/finally
shape guarantees the pending entry is deleted whether the ledger operation
succeeded or threw (dbFail quantifies over both, and the failure state is
arbitrary), so a confirmation whose ledger application failed is permanently
discarded: re-emitting the same signal afterwards is a complete no-op.  This
holds for the src/index.js reaction handler and the part_001 message
handler, the two sites built around try/finally. -/
theorem pendingDeletedEvenOnFailure :
    (∀ (st : IndexState) (msgId emojiName : String) (now : Int)
       (dbFail : Bool) (fd : List Debt) (fn : Nat) (a : PendingAction),
      (emojiName = CHECKMARK ∨ emojiName = "white_check_mark") →
      st.isTrackingEnabled = true →
      mapGet st.pendingActions msgId = some a →
      mapGet (indexReactionAdd st MUDAE_ID msgId emojiName true now dbFail fd
        fn).pendingActions msgId = none ∧
      ∀ (now2 : Int) (dbFail2 : Bool) (fd2 : List Debt) (fn2 : Nat),
        indexReactionAdd
          (indexReactionAdd st MUDAE_ID msgId emojiName true now dbFail fd fn)
          MUDAE_ID msgId emojiName true now2 dbFail2 fd2 fn2
        = indexReactionAdd st MUDAE_ID msgId emojiName true now dbFail fd fn) ∧
    (∀ (st : SplitState) (channelId content : String) (now : Int)
       (dbFail : Bool) (fd : List Debt) (p : PendingEntry),
      mapGet st.pendingRepayments channelId = some p →
      strContains (lowerStr content) (toString p.amount) = true →
      strContains (lowerStr content) "removed" = true →
      mapGet (p1MudaeConfirm st MUDAE_ID channelId content now dbFail
        fd).pendingRepayments channelId = none) := by
  constructor
  · intro st msgId emojiName now dbFail fd fn a hemoji htrack ha
    have hdel := indexReactionAdd_matched st msgId emojiName now dbFail fd fn a
      hemoji htrack ha
    have hmiss : mapGet (indexReactionAdd st MUDAE_ID msgId emojiName true now
        dbFail fd fn).pendingActions msgId = none := by
      rw [hdel.1]
      exact mapGet_delete_self st.pendingActions msgId
    exact ⟨hmiss, fun now2 dbFail2 fd2 fn2 =>
      indexReactionAdd_miss _ MUDAE_ID msgId emojiName true now2 dbFail2 fd2
        fn2 hmiss⟩
  · intro st channelId content now dbFail fd p hp hamt hkw
    have hdel := p1MudaeConfirm_matched st channelId content now dbFail fd p
      hp hamt hkw
    rw [hdel.1]
    exact mapGet_delete_self st.pendingRepayments channelId

/-- Witness for C10: the ledger insert throws (dbFail true, arbitrary partial
state), yet the pending entry is gone and a retry of the same reaction does
nothing. -/
theorem pendingDeletedEvenOnFailure_witness :
    mapGet (indexReactionAdd
      ⟨true, [("m1", ⟨"LOAN", "A", "123", 500, 0⟩)], [], 1⟩
      MUDAE_ID "m1" CHECKMARK true 0 true [] 1).pendingActions "m1" = none ∧
    indexReactionAdd (indexReactionAdd
        ⟨true, [("m1", ⟨"LOAN", "A", "123", 500, 0⟩)], [], 1⟩
        MUDAE_ID "m1" CHECKMARK true 0 true [] 1)
      MUDAE_ID "m1" CHECKMARK true 5 false [] 1
    = indexReactionAdd
        ⟨true, [("m1", ⟨"LOAN", "A", "123", 500, 0⟩)], [], 1⟩
        MUDAE_ID "m1" CHECKMARK true 0 true [] 1 :=
  ⟨(pendingDeletedEvenOnFailure.1
      ⟨true, [("m1", ⟨"LOAN", "A", "123", 500, 0⟩)], [], 1⟩
      "m1" CHECKMARK 0 true [] 1 ⟨"LOAN", "A", "123", 500, 0⟩
      (Or.inl rfl) rfl (by decide)).1,
   (pendingDeletedEvenOnFailure.1
      ⟨true, [("m1", ⟨"LOAN", "A", "123", 500, 0⟩)], [], 1⟩
      "m1" CHECKMARK 0 true [] 1 ⟨"LOAN", "A", "123", 500, 0⟩
      (Or.inl rfl) rfl (by decide)).2 5 false [] 1⟩

/-- C7 counterexample: in the part_001 variant the Mudae-message repayment
confirmation handler never consults the tracking flag.  With tracking off and
a pending repayment left in the channel, a matching Mudae message is still
honored: the open debt is paid down to zero and the pending entry consumed,
refuting the claim that no confirmation signal is honored while tracking is
off. -/
theorem trackingDisabledConfirmationCounterexample :
    (⟨false, [], [("c", ⟨"A", "u", 500, 0⟩)],
      [⟨1, "u", "A", 500, 500, 0, 0, "open", ""⟩], 2⟩ :
        SplitState).isTrackingEnabled = false ∧
    p1MudaeConfirm
      ⟨false, [], [("c", ⟨"A", "u", 500, 0⟩)],
        [⟨1, "u", "A", 500, 500, 0, 0, "open", ""⟩], 2⟩
      MUDAE_ID "c" "500 removed" 0 false []
    = ⟨false, [], [], [⟨1, "u", "A", 500, 0, 0, 0, "paid", ""⟩], 2⟩ ∧
    (p1MudaeConfirm
      ⟨false, [], [("c", ⟨"A", "u", 500, 0⟩)],
        [⟨1, "u", "A", 500, 500, 0, 0, "open", ""⟩], 2⟩
      MUDAE_ID "c" "500 removed" 0 false []).debts
    ≠ [⟨1, "u", "A", 500, 500, 0, 0, "open", ""⟩] := by
  refine ⟨rfl, by decide, by decide⟩

/-- C7 as amended: while the tracking flag is off, the src/index.js trigger
handler creates no pending entry, the src/index.js reaction confirmation is
not honored, and the part_000 message confirmation is not honored — each is a
complete no-op even when the grammar matches.  The part_001 message-based
repayment confirmation, however, lacks the tracking gate and can still be
honored while tracking is off (see the counterexample). -/
theorem trackingDisabledAmended :
    (∀ (adminIds : List String) (st : IndexState) (m : Msg) (now : Int),
      st.isTrackingEnabled = false →
      indexMessageCreate adminIds st m now = st) ∧
    (∀ (st : IndexState) (userId msgId emojiName : String) (fetchOk : Bool)
       (now : Int) (dbFail : Bool) (fd : List Debt) (fn : Nat),
      st.isTrackingEnabled = false →
      indexReactionAdd st userId msgId emojiName fetchOk now dbFail fd fn
        = st) ∧
    (∀ (st : SplitState) (authorId channelId content : String) (now : Int)
       (dbFail : Bool) (fd : List Debt),
      st.isTrackingEnabled = false →
      p0MudaeConfirm st authorId channelId content now dbFail fd = st) := by
  refine ⟨?_, ?_, ?_⟩
  · intro adminIds st m now h
    simp [indexMessageCreate, h]
  · intro st userId msgId emojiName fetchOk now dbFail fd fn h
    simp [indexReactionAdd, h]
  · intro st authorId channelId content now dbFail fd h
    simp [p0MudaeConfirm, h]

/-- Witness for the amended C7 at concrete states with tracking off: a
matching trigger, a matching reaction and a matching strict Mudae message all
leave the state untouched. -/
theorem trackingDisabledAmended_witness :
    indexMessageCreate ["A"] ⟨false, [], [], 1⟩
      ⟨"A", false, "m1", "c", "$givescrap <@123> 500"⟩ 0
      = ⟨false, [], [], 1⟩ ∧
    indexReactionAdd ⟨false, [("m1", ⟨"LOAN", "A", "123", 500, 0⟩)], [], 1⟩
      MUDAE_ID "m1" CHECKMARK true 0 false [] 1
      = ⟨false, [("m1", ⟨"LOAN", "A", "123", 500, 0⟩)], [], 1⟩ ∧
    p0MudaeConfirm
      ⟨false, [], [("c", ⟨"A", "u", 500, 0⟩)],
        [⟨1, "u", "A", 500, 500, 0, 0, "open", ""⟩], 2⟩
      MUDAE_ID "c" "**500** removed (added to reserve)" 0 false []
      = ⟨false, [], [("c", ⟨"A", "u", 500, 0⟩)],
          [⟨1, "u", "A", 500, 500, 0, 0, "open", ""⟩], 2⟩ :=
  ⟨trackingDisabledAmended.1 ["A"] ⟨false, [], [], 1⟩
      ⟨"A", false, "m1", "c", "$givescrap <@123> 500"⟩ 0 rfl,
   trackingDisabledAmended.2.1 ⟨false, [("m1", ⟨"LOAN", "A", "123", 500, 0⟩)], [], 1⟩
      MUDAE_ID "m1" CHECKMARK true 0 false [] 1 rfl,
   trackingDisabledAmended.2.2
      ⟨false, [], [("c", ⟨"A", "u", 500, 0⟩)],
        [⟨1, "u", "A", 500, 500, 0, 0, "open", ""⟩], 2⟩
      MUDAE_ID "c" "**500** removed (added to reserve)" 0 false [] rfl⟩

/-- C9 counterexample: in the part_001 loose variant the amount check is a
substring test, not an equality test.  With a pending repayment of 1500, a
Mudae message reporting 15000 removed (whose strictly parsed amount is 15000,
different from 1500) still contains the digit string 1500 and the keyword, so
it consumes the pending entry and applies a 1500 repayment to the ledger —
refuting the claim that a message whose amount differs from the pending
amount causes no consumption and no ledger mutation. -/
theorem looseConfirmationSubstringCounterexample :
    mudaeParse "**15000** removed (added to reserve)" = some 15000 ∧
    (15000 : Nat) ≠ 1500 ∧
    p1MudaeConfirm
      ⟨true, [], [("c", ⟨"A", "u", 1500, 0⟩)],
        [⟨1, "u", "A", 2000, 2000, 0, 0, "open", ""⟩], 2⟩
      MUDAE_ID "c" "**15000** removed (added to reserve)" 0 false []
    = ⟨true, [], [], [⟨1, "u", "A", 2000, 500, 0, 0, "open", ""⟩], 2⟩ := by
  refine ⟨by decide, by decide, by decide⟩

/-- C9 as amended: the two variants differ.  In part_000 (strict mudaeRegex)
a Mudae message in a watched channel consumes the pending repayment exactly
when the pattern — optional asterisks, the amount, then the word removed
followed by an open parenthesis and added, all confined to the first line of
the message, since the dot of the pattern cannot cross a line terminator —
parses a leading amount equal to the pending amount AND the ledger operation
completes without throwing; a non-matching or differing message leaves the
state untouched, and a matching message whose payment throws leaves the
pending entry in place (this listener has no try/finally).  In part_001
(loose parsing) the message consumes the pending entry exactly when its
lowered text contains the decimal digits of the pending amount as a substring
and contains the word removed — containment, not equality, so a message
reporting a different amount can also consume it (see the counterexample). -/
theorem confirmationGrammarAmended :
    (∀ (st : SplitState) (channelId content : String) (now : Int)
       (dbFail : Bool) (fd : List Debt) (p : PendingEntry),
      st.isTrackingEnabled = true →
      mapGet st.pendingRepayments channelId = some p →
      (mudaeParse content ≠ some p.amount →
        p0MudaeConfirm st MUDAE_ID channelId content now dbFail fd = st) ∧
      (mudaeParse content = some p.amount →
        mapGet (p0MudaeConfirm st MUDAE_ID channelId content
          now false fd).pendingRepayments channelId = none) ∧
      (mudaeParse content = some p.amount →
        (p0MudaeConfirm st MUDAE_ID channelId content
          now true fd).pendingRepayments = st.pendingRepayments)) ∧
    (∀ (st : SplitState) (channelId content : String) (now : Int)
       (dbFail : Bool) (fd : List Debt) (p : PendingEntry),
      mapGet st.pendingRepayments channelId = some p →
      ((strContains (lowerStr content) (toString p.amount) &&
        strContains (lowerStr content) "removed") = false →
        p1MudaeConfirm st MUDAE_ID channelId content now dbFail fd = st) ∧
      (strContains (lowerStr content) (toString p.amount) = true →
       strContains (lowerStr content) "removed" = true →
        mapGet (p1MudaeConfirm st MUDAE_ID channelId content now dbFail
          fd).pendingRepayments channelId = none)) := by
  constructor
  · intro st channelId content now dbFail fd p htrack hp
    refine ⟨fun hne => p0MudaeConfirm_nomatch st channelId content now dbFail
        fd p hp hne,
      fun heq => ?_, fun heq =>
        p0MudaeConfirm_failKeeps st channelId content now fd p htrack hp heq⟩
    rw [p0MudaeConfirm_matched st channelId content now fd p htrack hp heq]
    exact mapGet_delete_self st.pendingRepayments channelId
  · intro st channelId content now dbFail fd p hp
    refine ⟨fun hno => p1MudaeConfirm_nomatch st channelId content now dbFail
        fd p hp hno,
      fun hamt hkw => ?_⟩
    rw [(p1MudaeConfirm_matched st channelId content now dbFail fd p
        hp hamt hkw).1]
    exact mapGet_delete_self st.pendingRepayments channelId

/-- Witness for the amended C9: the strict variant rejects a message whose
leading amount differs, rejects a matching amount split across lines (the
pattern cannot cross a line terminator), consumes the exact single-line one
when the payment succeeds, and keeps the pending entry when the payment
throws; the loose variant rejects a message lacking the digits and consumes
one containing them. -/
theorem confirmationGrammarAmended_witness :
    p0MudaeConfirm
      ⟨true, [], [("c", ⟨"A", "u", 1500, 0⟩)],
        [⟨1, "u", "A", 2000, 2000, 0, 0, "open", ""⟩], 2⟩
      MUDAE_ID "c" "**700** removed (added to reserve)" 0 false []
    = ⟨true, [], [("c", ⟨"A", "u", 1500, 0⟩)],
        [⟨1, "u", "A", 2000, 2000, 0, 0, "open", ""⟩], 2⟩ ∧
    p0MudaeConfirm
      ⟨true, [], [("c", ⟨"A", "u", 1500, 0⟩)],
        [⟨1, "u", "A", 2000, 2000, 0, 0, "open", ""⟩], 2⟩
      MUDAE_ID "c" "1500\nremoved (added to reserve)" 0 false []
    = ⟨true, [], [("c", ⟨"A", "u", 1500, 0⟩)],
        [⟨1, "u", "A", 2000, 2000, 0, 0, "open", ""⟩], 2⟩ ∧
    mapGet (p0MudaeConfirm
      ⟨true, [], [("c", ⟨"A", "u", 1500, 0⟩)],
        [⟨1, "u", "A", 2000, 2000, 0, 0, "open", ""⟩], 2⟩
      MUDAE_ID "c" "**1,500** removed (added to reserve)" 0 false
      []).pendingRepayments "c" = none ∧
    (p0MudaeConfirm
      ⟨true, [], [("c", ⟨"A", "u", 1500, 0⟩)],
        [⟨1, "u", "A", 2000, 2000, 0, 0, "open", ""⟩], 2⟩
      MUDAE_ID "c" "**1,500** removed (added to reserve)" 0 true
      []).pendingRepayments = [("c", ⟨"A", "u", 1500, 0⟩)] ∧
    p1MudaeConfirm
      ⟨true, [], [("c", ⟨"A", "u", 1500, 0⟩)],
        [⟨1, "u", "A", 2000, 2000, 0, 0, "open", ""⟩], 2⟩
      MUDAE_ID "c" "nothing to see here" 0 false []
    = ⟨true, [], [("c", ⟨"A", "u", 1500, 0⟩)],
        [⟨1, "u", "A", 2000, 2000, 0, 0, "open", ""⟩], 2⟩ ∧
    mapGet (p1MudaeConfirm
      ⟨true, [], [("c", ⟨"A", "u", 1500, 0⟩)],
        [⟨1, "u", "A", 2000, 2000, 0, 0, "open", ""⟩], 2⟩
      MUDAE_ID "c" "**1500** removed (added)" 0 false []).pendingRepayments
      "c" = none :=
  ⟨(confirmationGrammarAmended.1
      ⟨true, [], [("c", ⟨"A", "u", 1500, 0⟩)],
        [⟨1, "u", "A", 2000, 2000, 0, 0, "open", ""⟩], 2⟩
      "c" "**700** removed (added to reserve)" 0 false [] ⟨"A", "u", 1500, 0⟩
      rfl (by decide)).1 (by decide),
   (confirmationGrammarAmended.1
      ⟨true, [], [("c", ⟨"A", "u", 1500, 0⟩)],
        [⟨1, "u", "A", 2000, 2000, 0, 0, "open", ""⟩], 2⟩
      "c" "1500\nremoved (added to reserve)" 0 false [] ⟨"A", "u", 1500, 0⟩
      rfl (by decide)).1 (by decide),
   (confirmationGrammarAmended.1
      ⟨true, [], [("c", ⟨"A", "u", 1500, 0⟩)],
        [⟨1, "u", "A", 2000, 2000, 0, 0, "open", ""⟩], 2⟩
      "c" "**1,500** removed (added to reserve)" 0 false []
      ⟨"A", "u", 1500, 0⟩ rfl (by decide)).2.1 (by decide),
   (confirmationGrammarAmended.1
      ⟨true, [], [("c", ⟨"A", "u", 1500, 0⟩)],
        [⟨1, "u", "A", 2000, 2000, 0, 0, "open", ""⟩], 2⟩
      "c" "**1,500** removed (added to reserve)" 0 true []
      ⟨"A", "u", 1500, 0⟩ rfl (by decide)).2.2 (by decide),
   (confirmationGrammarAmended.2
      ⟨true, [], [("c", ⟨"A", "u", 1500, 0⟩)],
        [⟨1, "u", "A", 2000, 2000, 0, 0, "open", ""⟩], 2⟩
      "c" "nothing to see here" 0 false [] ⟨"A", "u", 1500, 0⟩
      (by decide)).1 (by decide),
   (confirmationGrammarAmended.2
      ⟨true, [], [("c", ⟨"A", "u", 1500, 0⟩)],
        [⟨1, "u", "A", 2000, 2000, 0, 0, "open", ""⟩], 2⟩
      "c" "**1500** removed (added)" 0 false [] ⟨"A", "u", 1500, 0⟩
      (by decide)).2 (by decide) (by decide)⟩

/-- C5: for a borrower with exactly two open debts, A with remaining 500
created at t1 and B with remaining 800 created at t2 later than t1, a
repayment of 700 fully pays A (remaining 0, status paid) and reduces B to
600 still open, and the outcome list reports A fully paid first, then B
partially reduced — FIFO by created_at ascending, independent of the row
order in the table (here B is stored before A). -/
theorem payDebtFifoExample (u an1 an2 nt1 nt2 : String) (i1 i2 : Nat)
    (t1 t2 l1 l2 : Int) (p1 p2 : Nat)
    (hlt : t1 < t2) (hid : i1 ≠ i2) :
    payDebt u 700
      [⟨i2, u, an2, p2, 800, t2, l2, "open", nt2⟩,
       ⟨i1, u, an1, p1, 500, t1, l1, "open", nt1⟩]
    = ([⟨i2, u, an2, p2, 600, t2, l2, "open", nt2⟩,
        ⟨i1, u, an1, p1, 0, t1, l1, "paid", nt1⟩],
       [PayLog.paidFully i1 500, PayLog.reduced i2 200 600]) := by
  have hle : t1 ≤ t2 := le_of_lt hlt
  have hnle : ¬ t2 ≤ t1 := not_le_of_lt hlt
  have hbeq : (i1 == i2) = false := by
    simp [hid]
  have hbeq2 : (i2 == i1) = false := by
    simp
    intro h
    exact hid h.symm
  simp [payDebt, sortByCreated, insertByCreated, hle, hnle, payLoop,
    applyUpdates, List.find?, hbeq, hbeq2]

/-- Witness for C5 at fully concrete debts. -/
theorem payDebtFifoExample_witness :
    payDebt "u" 700
      [⟨2, "u", "a2", 800, 800, 20, 20, "open", "n2"⟩,
       ⟨1, "u", "a1", 500, 500, 10, 10, "open", "n1"⟩]
    = ([⟨2, "u", "a2", 800, 600, 20, 20, "open", "n2"⟩,
        ⟨1, "u", "a1", 500, 0, 10, 10, "paid", "n1"⟩],
       [PayLog.paidFully 1 500, PayLog.reduced 2 200 600]) :=
  payDebtFifoExample "u" "a1" "a2" "n1" "n2" 1 2 10 20 10 20 500 800
    (by decide) (by decide)

/-- C6: when the payment strictly exceeds the borrowers total open debt,
every open debt of that borrower is marked paid with remaining 0 and every
other row is untouched; the surplus is discarded without trace: the entire
output of the allocator, the updated table and the outcome list alike, is the
same for any two over-total payment amounts, so nothing records or carries
the excess forward. -/
theorem payDebtOverpayDiscardsExcess (debts : List Debt) (u : String)
    (amount : Nat)
    (hN : (debts.map Debt.id).Nodup)
    (hover : ((debts.filter (fun d => decide (d.borrower_id = u ∧
        d.status = "open"))).map (fun d => d.amount_remaining)).sum < amount) :
    (payDebt u amount debts).1 =
      debts.map (fun d =>
        if d.borrower_id = u ∧ d.status = "open"
        then { d with amount_remaining := 0, status := "paid" } else d) ∧
    ∀ amount2,
      ((debts.filter (fun d => decide (d.borrower_id = u ∧
        d.status = "open"))).map (fun d => d.amount_remaining)).sum < amount2 →
      payDebt u amount2 debts = payDebt u amount debts := by
  have hsum : ((sortByCreated (debts.filter (fun d =>
      decide (d.borrower_id = u ∧ d.status = "open")))).map
      (fun d => d.amount_remaining)).sum
      = ((debts.filter (fun d => decide (d.borrower_id = u ∧
          d.status = "open"))).map (fun d => d.amount_remaining)).sum :=
    ((sortByCreated_perm _).map _).sum_eq
  have hloop := payLoop_overpay _ amount (by rw [hsum]; exact hover)
  constructor
  · show (applyUpdates (payLoop amount (sortByCreated (debts.filter (fun d =>
        decide (d.borrower_id = u ∧ d.status = "open"))))).1 debts) = _
    rw [hloop]
    exact applyUpdates_payOff debts u hN
  · intro amount2 hover2
    have hloop2 := payLoop_overpay _ amount2 (by rw [hsum]; exact hover2)
    simp only [payDebt]
    rw [hloop, hloop2]

/-- Witness for C6: a payment of 2000 against open debts of 500 and 800
pays both off, and a payment of 9999 produces the identical output. -/
theorem payDebtOverpayDiscardsExcess_witness :
    (payDebt "u" 2000
      [⟨1, "u", "a", 500, 500, 10, 10, "open", ""⟩,
       ⟨2, "u", "a", 800, 800, 20, 20, "open", ""⟩,
       ⟨3, "v", "a", 300, 300, 5, 5, "open", ""⟩]).1
    = [⟨1, "u", "a", 500, 0, 10, 10, "paid", ""⟩,
       ⟨2, "u", "a", 800, 0, 20, 20, "paid", ""⟩,
       ⟨3, "v", "a", 300, 300, 5, 5, "open", ""⟩] ∧
    payDebt "u" 9999
      [⟨1, "u", "a", 500, 500, 10, 10, "open", ""⟩,
       ⟨2, "u", "a", 800, 800, 20, 20, "open", ""⟩,
       ⟨3, "v", "a", 300, 300, 5, 5, "open", ""⟩]
    = payDebt "u" 2000
      [⟨1, "u", "a", 500, 500, 10, 10, "open", ""⟩,
       ⟨2, "u", "a", 800, 800, 20, 20, "open", ""⟩,
       ⟨3, "v", "a", 300, 300, 5, 5, "open", ""⟩] := by
  refine ⟨?_, ?_⟩
  · have h := (payDebtOverpayDiscardsExcess
      [⟨1, "u", "a", 500, 500, 10, 10, "open", ""⟩,
       ⟨2, "u", "a", 800, 800, 20, 20, "open", ""⟩,
       ⟨3, "v", "a", 300, 300, 5, 5, "open", ""⟩] "u" 2000
      (by decide) (by decide)).1
    rw [h]
    decide
  · exact (payDebtOverpayDiscardsExcess
      [⟨1, "u", "a", 500, 500, 10, 10, "open", ""⟩,
       ⟨2, "u", "a", 800, 800, 20, 20, "open", ""⟩,
       ⟨3, "v", "a", 300, 300, 5, 5, "open", ""⟩] "u" 2000
      (by decide) (by decide)).2 9999 (by decide)

/-- C8: at most one pending action lives under a correlation key.  When two
LOAN triggers register under the same key (here: equal message ids) in
sequence, the map holds exactly one entry under that key, namely the second
trigger's data — the first is overwritten with no merge and no ledger effect
(the table and SERIAL counter still match the initial state) — and a
checkmark confirmation arriving afterwards creates a debt with the second
trigger's amount only. -/
theorem pendingOverwriteLastWins (adminIds : List String) (st : IndexState)
    (m1 m2 : Msg) (now1 now2 : Int) (u1 : String) (a1 : Nat) (u2 : String)
    (a2 : Nat)
    (hkey : m1.id = m2.id)
    (hbot1 : m1.authorIsBot = false) (hbot2 : m2.authorIsBot = false)
    (hadmin1 : adminIds.contains m1.authorId = true)
    (hadmin2 : adminIds.contains m2.authorId = true)
    (htrack : st.isTrackingEnabled = true)
    (hex1 : strContains (lowerStr m1.content) "#exempt" = false)
    (hex2 : strContains (lowerStr m2.content) "#exempt" = false)
    (hg1 : parseGive m1.content = some (u1, a1))
    (hg2 : parseGive m2.content = some (u2, a2)) :
    mapGet (indexMessageCreate adminIds st m1 now1).pendingActions m2.id
      = some ⟨"LOAN", m1.authorId, u1, a1, now1⟩ ∧
    mapGet (indexMessageCreate adminIds
        (indexMessageCreate adminIds st m1 now1) m2 now2).pendingActions m2.id
      = some ⟨"LOAN", m2.authorId, u2, a2, now2⟩ ∧
    ((indexMessageCreate adminIds
        (indexMessageCreate adminIds st m1 now1) m2 now2).pendingActions.filter
        (fun e => e.1 = m2.id)).length = 1 ∧
    (indexMessageCreate adminIds
        (indexMessageCreate adminIds st m1 now1) m2 now2).debts = st.debts ∧
    (indexMessageCreate adminIds
        (indexMessageCreate adminIds st m1 now1) m2 now2).nextId = st.nextId ∧
    ∀ (now3 : Int) (fd : List Debt) (fn : Nat),
      (indexReactionAdd (indexMessageCreate adminIds
          (indexMessageCreate adminIds st m1 now1) m2 now2)
        MUDAE_ID m2.id CHECKMARK true now3 false fd fn).debts
      = applyInterest now3 st.debts ++
        [⟨st.nextId, u2, m2.authorId, a2, a2, now3, now3, "open",
          "Verified by Mudae"⟩] := by
  have hframe1 := indexMessageCreate_frame adminIds st m1 now1
  have htrack1 : (indexMessageCreate adminIds st m1 now1).isTrackingEnabled
      = true := by rw [hframe1.2.2, htrack]
  have hst2 := indexMessageCreate_give adminIds
    (indexMessageCreate adminIds st m1 now1) m2 now2 u2 a2 hbot2 hadmin2
    htrack1 hex2 hg2
  have hframe2 := indexMessageCreate_frame adminIds
    (indexMessageCreate adminIds st m1 now1) m2 now2
  have hget : mapGet (indexMessageCreate adminIds
      (indexMessageCreate adminIds st m1 now1) m2 now2).pendingActions m2.id
      = some ⟨"LOAN", m2.authorId, u2, a2, now2⟩ := by
    rw [hst2]
    exact mapGet_set_self _ m2.id _
  have hdebts : (indexMessageCreate adminIds
      (indexMessageCreate adminIds st m1 now1) m2 now2).debts = st.debts := by
    rw [hframe2.1, hframe1.1]
  have hnext : (indexMessageCreate adminIds
      (indexMessageCreate adminIds st m1 now1) m2 now2).nextId = st.nextId := by
    rw [hframe2.2.1, hframe1.2.1]
  have htrack2 : (indexMessageCreate adminIds
      (indexMessageCreate adminIds st m1 now1) m2 now2).isTrackingEnabled
      = true := by rw [hframe2.2.2, htrack1]
  have hst1 := indexMessageCreate_give adminIds st m1 now1 u1 a1 hbot1
    hadmin1 htrack hex1 hg1
  have hget1 : mapGet (indexMessageCreate adminIds st m1
      now1).pendingActions m2.id = some ⟨"LOAN", m1.authorId, u1, a1, now1⟩ := by
    rw [hst1, ← hkey]
    exact mapGet_set_self _ m1.id _
  refine ⟨hget1, hget, ?_, hdebts, hnext, ?_⟩
  · rw [hst2]
    exact mapSet_unique_key _ m2.id _
  · intro now3 fd fn
    rw [indexReactionAdd_loan _ m2.id CHECKMARK now3 fd fn
      ⟨"LOAN", m2.authorId, u2, a2, now2⟩ (Or.inl rfl) htrack2 hget rfl]
    rw [hdebts, hnext]

/-- Witness for C8: two concrete givescrap triggers with the same message id
and different amounts; the live entry is the second one, and confirming
creates a debt of 800, the second amount. -/
theorem pendingOverwriteLastWins_witness :
    mapGet (indexMessageCreate ["A"]
        (indexMessageCreate ["A"] ⟨true, [], [], 1⟩
          ⟨"A", false, "m1", "c", "$givescrap <@123> 500"⟩ 0)
        ⟨"A", false, "m1", "c", "$givescrap <@123> 800"⟩ 1).pendingActions "m1"
      = some ⟨"LOAN", "A", "123", 800, 1⟩ ∧
    (indexReactionAdd (indexMessageCreate ["A"]
        (indexMessageCreate ["A"] ⟨true, [], [], 1⟩
          ⟨"A", false, "m1", "c", "$givescrap <@123> 500"⟩ 0)
        ⟨"A", false, "m1", "c", "$givescrap <@123> 800"⟩ 1)
      MUDAE_ID "m1" CHECKMARK true 2 false [] 0).debts
    = applyInterest 2 [] ++
      [⟨1, "123", "A", 800, 800, 2, 2, "open", "Verified by Mudae"⟩] :=
  ⟨(pendingOverwriteLastWins ["A"] ⟨true, [], [], 1⟩
      ⟨"A", false, "m1", "c", "$givescrap <@123> 500"⟩
      ⟨"A", false, "m1", "c", "$givescrap <@123> 800"⟩ 0 1 "123" 500 "123" 800
      rfl rfl rfl (by decide) (by decide) rfl (by decide) (by decide)
      (by decide) (by decide)).2.1,
   (pendingOverwriteLastWins ["A"] ⟨true, [], [], 1⟩
      ⟨"A", false, "m1", "c", "$givescrap <@123> 500"⟩
      ⟨"A", false, "m1", "c", "$givescrap <@123> 800"⟩ 0 1 "123" 500 "123" 800
      rfl rfl rfl (by decide) (by decide) rfl (by decide) (by decide)
      (by decide) (by decide)).2.2.2.2.2 2 [] 0⟩
